import Mathlib

/-!
Verification of the Game-of-Life core of `wasm-game-of-life` (`src/lib.rs`).

The simulation model is shallowly embedded: the Rust types `Cell` and
`Universe` become Lean inductive/structure types, the methods
`get_index`, `live_neighbor_count`, `cell`, `toggle_cell`, `tick` and
`new` become Lean functions translated line by line from the source.
Machine integers (`u32`, `u8`, `usize`) are modelled as `Nat`; none of
the arithmetic below can overflow `u32` for the grids the claims range
over (indices stay below `width * height`, which is a Rust `Vec`
length).  Fallible operations — Rust `Vec` indexing, which panics out
of bounds — are modelled with `Option`: a `none` result marks the
panic.  Where the source reads `self.cells[idx]` inside a computation
that the safety analysis shows is always in bounds, the embedding uses
`(cells[idx]?).getD Cell.Dead`; the in-bounds theorems below show the
default branch is unreachable for well-formed grids.
-/

/-- Rust `enum Cell { Dead = 0, Alive = 1 }`. -/
inductive Cell where
  | Dead : Cell
  | Alive : Cell
deriving DecidableEq, Repr

/-- The `as u8` cast of a `Cell` (`Dead = 0`, `Alive = 1`). -/
def Cell.toU8 : Cell → Nat
  | Cell.Dead => 0
  | Cell.Alive => 1

/-- Rust `struct Universe { width: u32, height: u32, cells: Vec<Cell> }`. -/
structure Universe where
  width : Nat
  height : Nat
  cells : List Cell
deriving DecidableEq, Repr

namespace Universe

/-- `Universe::get_index`: `(row * self.width + column) as usize`. -/
def get_index (u : Universe) (row column : Nat) : Nat :=
  row * u.width + column

/-- `Universe::live_neighbor_count`: two nested loops over the offset
lists `[self.height - 1, 0, 1]` and `[self.width - 1, 0, 1]`, skipping
the `(0, 0)` offset pair (`continue`), accumulating
`self.cells[idx] as u8` at the wrapped coordinate.  The out-of-bounds
panic of `self.cells[idx]` is modelled by the `getD Cell.Dead` default;
the bounds theorem below shows `idx` is always in range for grids
satisfying the length invariant. -/
def live_neighbor_count (u : Universe) (row column : Nat) : Nat :=
  [u.height - 1, 0, 1].foldl (fun count delta_row =>
    [u.width - 1, 0, 1].foldl (fun count delta_col =>
      if delta_row = 0 ∧ delta_col = 0 then
        count
      else
        let neighbor_row := (row + delta_row) % u.height
        let neighbor_col := (column + delta_col) % u.width
        let idx := u.get_index neighbor_row neighbor_col
        count + ((u.cells[idx]?).getD Cell.Dead).toU8) count) 0

/-- `Universe::cell`: `self.cells[self.get_index(row, column)]`.  (In the
source the two parameters are named `width` and `height`, but every
caller passes `(row, col)`.)  `none` models the out-of-bounds panic. -/
def cell (u : Universe) (row column : Nat) : Option Cell :=
  u.cells[u.get_index row column]?

/-- `Universe::toggle_cell`: reads `self.cells[idx]` (panic modelled as
`none`) and writes the flipped value back at the same `idx`. -/
def toggle_cell (u : Universe) (row column : Nat) : Option Universe :=
  let idx := u.get_index row column
  match u.cells[idx]? with
  | none => none
  | some c =>
      some { u with
        cells := u.cells.set idx (if c = Cell.Alive then Cell.Dead else Cell.Alive) }

/-- The `match (cell, live_neighbors)` of `Universe::tick`, arm by arm:
underpopulation, survival, overpopulation, reproduction, otherwise
unchanged. -/
def next_cell (cell : Cell) (live_neighbors : Nat) : Cell :=
  if cell = Cell.Alive ∧ live_neighbors < 2 then Cell.Dead
  else if cell = Cell.Alive ∧ (live_neighbors = 2 ∨ live_neighbors = 3) then Cell.Alive
  else if cell = Cell.Alive ∧ 3 < live_neighbors then Cell.Dead
  else if cell = Cell.Dead ∧ live_neighbors = 3 then Cell.Alive
  else cell

/-- `Universe::tick`: clones `self.cells` into `next`, loops over all
`(row, col)` with `row < height`, `col < width`, writes
`next[idx] = next_cell` computed from the *original* `self.cells`, and
finally stores `next` back.  `List.set` is a no-op out of bounds, which
the safety theorems show never happens for well-formed grids. -/
def tick (u : Universe) : Universe :=
  let next := (List.range u.height).foldl (fun next row =>
    (List.range u.width).foldl (fun next col =>
      let idx := u.get_index row col
      let cell := (u.cells[idx]?).getD Cell.Dead
      let live_neighbors := u.live_neighbor_count row col
      next.set idx (next_cell cell live_neighbors)) next) u.cells
  { u with cells := next }

/-- `Universe::new`: hard-coded 64 × 64 grid, cell `i` seeded Alive when
`i % 2 == 0 || i % 7 == 0`.  The constructor takes no dimension
parameters, so no zero-sized grid can be requested through it. -/
def new : Universe :=
  let width := 64
  let height := 64
  let cells := (List.range (width * height)).map fun i =>
    if i % 2 = 0 || i % 7 = 0 then Cell.Alive else Cell.Dead
  { width := width, height := height, cells := cells }

/-- The nine `(delta_row, delta_col)` offset pairs visited by the nested
loops of `live_neighbor_count`, in loop order. -/
def neighbor_offset_pairs (u : Universe) : List (Nat × Nat) :=
  [u.height - 1, 0, 1].flatMap fun delta_row =>
    [u.width - 1, 0, 1].map fun delta_col => (delta_row, delta_col)

/-- The buffer indices read by `live_neighbor_count(row, column)`: one
per offset pair whose value is not `(0, 0)`, at the modularly wrapped
coordinate. -/
def neighborIndices (u : Universe) (row column : Nat) : List Nat :=
  (u.neighbor_offset_pairs.filter fun q => decide (¬(q.1 = 0 ∧ q.2 = 0))).map fun q =>
    u.get_index ((row + q.1) % u.height) ((column + q.2) % u.width)

/-- Modelled from the spec (§4.1, neighbor counting): "for each of the 3
row offsets `{height-1, 0, 1}` taken modulo `height` when added to
`row`, and each of the 3 column offsets `{width-1, 0, 1}` taken modulo
`width` when added to `column`, excluding the (0,0) offset pair (the
cell itself), sum the Alive/Dead value (Alive counts as 1, Dead as 0) of
the neighbor at that wrapped coordinate."  Duplicate wrapped coordinates
(width or height 1 or 2) contribute once per offset pair. -/
def spec_neighbor_sum (u : Universe) (row column : Nat) : Nat :=
  ((u.neighborIndices row column).map fun idx =>
    ((u.cells[idx]?).getD Cell.Dead).toU8).sum

end Universe

/-- One externally invokable mutation of the grid, for stating that the
length invariant survives arbitrary call sequences. -/
inductive Op where
  | tick : Op
  | toggle : Nat → Nat → Op

/-- Run one operation (`toggle_cell` may panic, hence `Option`). -/
def Universe.applyOp (u : Universe) : Op → Option Universe
  | Op.tick => some u.tick
  | Op.toggle row column => u.toggle_cell row column

/-- Run a sequence of `tick` / `toggle_cell` calls. -/
def Universe.applyOps (u : Universe) (ops : List Op) : Option Universe :=
  ops.foldlM Universe.applyOp u

/-- The 3 × 3 grid of the spec's end-to-end example: all Dead except
Alive at (1,0), (1,1), (1,2). -/
def blinker3 : Universe :=
  { width := 3, height := 3,
    cells := [Cell.Dead, Cell.Dead, Cell.Dead,
              Cell.Alive, Cell.Alive, Cell.Alive,
              Cell.Dead, Cell.Dead, Cell.Dead] }

/-- All `(row, col)` coordinates visited by the two loops of `tick`, in
loop order. -/
def Universe.coordPairs (u : Universe) : List (Nat × Nat) :=
  (List.range u.height).flatMap fun row =>
    (List.range u.width).map fun col => (row, col)

/-- The value `tick` writes at buffer index `j` (for `j` in range),
expressed as a function of the index alone. -/
def Universe.tickWrite (u : Universe) (j : Nat) : Cell :=
  Universe.next_cell ((u.cells[j]?).getD Cell.Dead)
    (u.live_neighbor_count (j / u.width) (j % u.width))

/-- A 2 × 2 grid with every cell Dead (concrete instance for the
no-spontaneous-life property). -/
def deadGrid2 : Universe :=
  { width := 2, height := 2,
    cells := [Cell.Dead, Cell.Dead, Cell.Dead, Cell.Dead] }

/-- A 2 × 2 grid with one Alive cell at linear index 1, used to exhibit
that `cell`/`toggle_cell` accept a column beyond `width` as long as the
linear index stays inside the buffer. -/
def aliasGrid : Universe :=
  { width := 2, height := 2,
    cells := [Cell.Dead, Cell.Alive, Cell.Dead, Cell.Dead] }

/-! ### General list and arithmetic lemmas -/

theorem foldl_foldl_flatMap {α β γ : Type} (f : β → γ → β) (l : List α)
    (g : α → List γ) (b : β) :
    l.foldl (fun acc a => (g a).foldl f acc) b = (l.flatMap g).foldl f b := by
  induction l generalizing b with
  | nil => rfl
  | cons a l ih =>
    rw [List.foldl_cons, List.flatMap_cons, List.foldl_append]
    exact ih _

theorem foldl_length_invariant {α β : Type} (f : List α → β → List α)
    (l : List β) (buf : List α) (hf : ∀ b x, (f b x).length = b.length) :
    (l.foldl f buf).length = buf.length := by
  induction l generalizing buf with
  | nil => rfl
  | cons x l ih =>
    rw [List.foldl_cons, ih (f buf x)]
    exact hf buf x

theorem getElem?_foldl_set {α : Type} (g : Nat → α) (l : List Nat)
    (buf : List α) (j : Nat) :
    (l.foldl (fun b i => b.set i (g i)) buf)[j]? =
      if j ∈ l ∧ j < buf.length then some (g j) else buf[j]? := by
  induction l generalizing buf with
  | nil => simp
  | cons i l ih =>
    rw [List.foldl_cons, ih, List.length_set]
    rcases Decidable.em (j ∈ l ∧ j < buf.length) with h1 | h1
    · rw [if_pos h1, if_pos ⟨List.mem_cons_of_mem _ h1.1, h1.2⟩]
    · rw [if_neg h1, List.getElem?_set]
      by_cases hij : i = j
      · subst hij
        by_cases hlen : i < buf.length
        · rw [if_pos rfl, if_pos hlen, if_pos ⟨List.mem_cons_self _ _, hlen⟩]
        · rw [if_pos rfl, if_neg hlen,
            if_neg (fun h : i ∈ i :: l ∧ i < buf.length => hlen h.2),
            List.getElem?_eq_none (Nat.le_of_not_lt hlen)]
      · rw [if_neg hij]
        have hne : ¬(j ∈ i :: l ∧ j < buf.length) := by
          intro h
          rcases List.mem_cons.mp h.1 with h2 | h2
          · exact hij h2.symm
          · exact h1 ⟨h2, h.2⟩
        rw [if_neg hne]

theorem forall_mem_foldl_set {α β : Type} (P : α → Prop) (pos : β → Nat)
    (val : β → α) (l : List β) (buf : List α)
    (hbuf : ∀ c ∈ buf, P c) (hval : ∀ x ∈ l, P (val x)) :
    ∀ c ∈ l.foldl (fun b x => b.set (pos x) (val x)) buf, P c := by
  induction l generalizing buf with
  | nil => exact hbuf
  | cons x l ih =>
    rw [List.foldl_cons]
    refine ih _ ?_ fun y hy => hval y (List.mem_cons_of_mem _ hy)
    intro d hd
    rcases List.mem_or_eq_of_mem_set hd with h | h
    · exact hbuf d h
    · exact h ▸ hval x (List.mem_cons_self _ _)

theorem foldl_skip_eq_add_sum {α : Type} (p : α → Prop) [DecidablePred p]
    (f : α → Nat) (l : List α) (a : Nat) :
    l.foldl (fun cnt x => if p x then cnt else cnt + f x) a
      = a + ((l.filter fun x => decide (¬ p x)).map f).sum := by
  induction l generalizing a with
  | nil => simp
  | cons x l ih =>
    rw [List.foldl_cons]
    by_cases hx : p x
    · rw [if_pos hx, ih]
      simp [List.filter_cons, hx]
    · rw [if_neg hx, ih]
      rw [List.filter_cons, if_pos (by simp [hx]), List.map_cons, List.sum_cons]
      omega

theorem sum_map_le_length {α : Type} (f : α → Nat) (l : List α)
    (hf : ∀ x ∈ l, f x ≤ 1) : (l.map f).sum ≤ l.length := by
  induction l with
  | nil => simp
  | cons x l ih =>
    simp only [List.map_cons, List.sum_cons, List.length_cons]
    have h1 := hf x (List.mem_cons_self _ _)
    have h2 := ih fun y hy => hf y (List.mem_cons_of_mem _ hy)
    omega

theorem getElem?_isSome_iff {α : Type} (l : List α) (i : Nat) :
    l[i]?.isSome ↔ i < l.length := by
  constructor
  · intro h
    by_contra hc
    rw [List.getElem?_eq_none (Nat.le_of_not_lt hc)] at h
    simp at h
  · intro h
    rw [List.getElem?_eq_getElem h]
    rfl

theorem set_getElem?_self {α : Type} (l : List α) (n : Nat) (a : α)
    (h : l[n]? = some a) : l.set n a = l := by
  induction l generalizing n with
  | nil => simp at h
  | cons x l ih =>
    cases n with
    | zero =>
      obtain rfl : x = a := by simpa using h
      rfl
    | succ n =>
      show x :: l.set n a = x :: l
      rw [ih n (by simpa using h)]

theorem get_index_lt (u : Universe) {row column : Nat}
    (hr : row < u.height) (hc : column < u.width) :
    u.get_index row column < u.width * u.height := by
  have h1 : row * u.width + column < (row + 1) * u.width := by
    rw [Nat.succ_mul]
    omega
  have h2 : (row + 1) * u.width ≤ u.height * u.width :=
    Nat.mul_le_mul_right _ hr
  calc u.get_index row column = row * u.width + column := rfl
    _ < (row + 1) * u.width := h1
    _ ≤ u.height * u.width := h2
    _ = u.width * u.height := Nat.mul_comm _ _

theorem exists_coord_iff (w h j : Nat) (hw : 0 < w) :
    (∃ r, r < h ∧ ∃ c, c < w ∧ r * w + c = j) ↔ j < h * w := by
  constructor
  · rintro ⟨r, hr, c, hc, rfl⟩
    have h1 : r * w + c < (r + 1) * w := by rw [Nat.succ_mul]; omega
    have h2 : (r + 1) * w ≤ h * w := Nat.mul_le_mul_right _ hr
    omega
  · intro hj
    refine ⟨j / w, ?_, j % w, Nat.mod_lt _ hw, ?_⟩
    · rw [Nat.div_lt_iff_lt_mul hw]
      exact hj
    · rw [Nat.mul_comm (j / w) w]
      exact Nat.div_add_mod j w

theorem rowcol_div_mod {w r c : Nat} (hw : 0 < w) (hc : c < w) :
    (r * w + c) / w = r ∧ (r * w + c) % w = c := by
  constructor
  · rw [Nat.mul_comm r w, Nat.mul_add_div hw, Nat.div_eq_of_lt hc, Nat.add_zero]
  · rw [Nat.mul_comm r w, Nat.mul_add_mod, Nat.mod_eq_of_lt hc]

/-! ### Characterization of the embedded operations -/

theorem tick_cells_eq_foldl (u : Universe) :
    (u.tick).cells = u.coordPairs.foldl
      (fun next q => next.set (u.get_index q.1 q.2)
        (Universe.next_cell ((u.cells[u.get_index q.1 q.2]?).getD Cell.Dead)
          (u.live_neighbor_count q.1 q.2)))
      u.cells := by
  have h0 : (u.tick).cells = (List.range u.height).foldl (fun next row =>
      (List.range u.width).foldl (fun next col =>
        next.set (u.get_index row col)
          (Universe.next_cell ((u.cells[u.get_index row col]?).getD Cell.Dead)
            (u.live_neighbor_count row col))) next) u.cells := rfl
  rw [h0, Universe.coordPairs, ← foldl_foldl_flatMap]
  exact List.foldl_ext _ _ _ fun b row hrow =>
    (List.foldl_map (fun col => ((row, col) : Nat × Nat))
      (fun (next : List Cell) (q : Nat × Nat) => next.set (u.get_index q.1 q.2)
        (Universe.next_cell ((u.cells[u.get_index q.1 q.2]?).getD Cell.Dead)
          (u.live_neighbor_count q.1 q.2)))
      (List.range u.width) b).symm

theorem tick_width (u : Universe) : (u.tick).width = u.width := rfl

theorem tick_height (u : Universe) : (u.tick).height = u.height := rfl

theorem tick_cells_length (u : Universe) :
    (u.tick).cells.length = u.cells.length := by
  rw [tick_cells_eq_foldl]
  exact foldl_length_invariant _ _ _ fun b q => List.length_set _ _ _

theorem mem_coordPairs (u : Universe) {q : Nat × Nat} (hq : q ∈ u.coordPairs) :
    q.1 < u.height ∧ q.2 < u.width := by
  rw [Universe.coordPairs] at hq
  obtain ⟨r, hr, hq2⟩ := List.mem_flatMap.mp hq
  obtain ⟨c, hc, rfl⟩ := List.mem_map.mp hq2
  exact ⟨List.mem_range.mp hr, List.mem_range.mp hc⟩

theorem mem_coordPairs_map_iff (u : Universe) (hw : 0 < u.width) (j : Nat) :
    j ∈ u.coordPairs.map (fun q => u.get_index q.1 q.2) ↔
      j < u.height * u.width := by
  rw [← exists_coord_iff u.width u.height j hw]
  constructor
  · intro hj
    obtain ⟨q, hq, rfl⟩ := List.mem_map.mp hj
    obtain ⟨h1, h2⟩ := mem_coordPairs u hq
    exact ⟨q.1, h1, q.2, h2, rfl⟩
  · rintro ⟨r, hr, c, hc, rfl⟩
    refine List.mem_map.mpr ⟨(r, c), ?_, rfl⟩
    rw [Universe.coordPairs]
    refine List.mem_flatMap.mpr ⟨r, List.mem_range.mpr hr, ?_⟩
    exact List.mem_map.mpr ⟨c, List.mem_range.mpr hc, rfl⟩

theorem tick_cells_getElem (u : Universe) (hw : 0 < u.width) (j : Nat) :
    (u.tick).cells[j]? =
      if j < u.height * u.width ∧ j < u.cells.length then
        some (u.tickWrite j)
      else u.cells[j]? := by
  rw [tick_cells_eq_foldl]
  have hext : List.foldl
      (fun (next : List Cell) (q : Nat × Nat) => next.set (u.get_index q.1 q.2)
        (Universe.next_cell ((u.cells[u.get_index q.1 q.2]?).getD Cell.Dead)
          (u.live_neighbor_count q.1 q.2)))
      u.cells u.coordPairs
      = List.foldl (fun b i => b.set i (u.tickWrite i)) u.cells
        (u.coordPairs.map fun q => u.get_index q.1 q.2) := by
    rw [List.foldl_map]
    refine List.foldl_ext _ _ _ fun b q hq => ?_
    obtain ⟨h1, h2⟩ := mem_coordPairs u hq
    obtain ⟨hdiv, hmod⟩ := rowcol_div_mod (r := q.1) (c := q.2) hw h2
    show b.set (u.get_index q.1 q.2)
        (Universe.next_cell ((u.cells[u.get_index q.1 q.2]?).getD Cell.Dead)
          (u.live_neighbor_count q.1 q.2))
      = b.set (u.get_index q.1 q.2)
        (Universe.next_cell ((u.cells[u.get_index q.1 q.2]?).getD Cell.Dead)
          (u.live_neighbor_count (u.get_index q.1 q.2 / u.width)
            (u.get_index q.1 q.2 % u.width)))
    rw [show u.get_index q.1 q.2 / u.width = q.1 from hdiv,
        show u.get_index q.1 q.2 % u.width = q.2 from hmod]
  rw [hext, getElem?_foldl_set]
  simp only [mem_coordPairs_map_iff u hw]

theorem lnc_eq_spec_sum (u : Universe) (row column : Nat) :
    u.live_neighbor_count row column = u.spec_neighbor_sum row column := by
  have h0 : u.live_neighbor_count row column
      = [u.height - 1, 0, 1].foldl (fun count delta_row =>
          [u.width - 1, 0, 1].foldl (fun count delta_col =>
            if delta_row = 0 ∧ delta_col = 0 then count
            else count + ((u.cells[u.get_index ((row + delta_row) % u.height)
              ((column + delta_col) % u.width)]?).getD Cell.Dead).toU8) count) 0 := rfl
  have h1 : u.live_neighbor_count row column
      = u.neighbor_offset_pairs.foldl
          (fun count q => if q.1 = 0 ∧ q.2 = 0 then count
            else count + ((u.cells[u.get_index ((row + q.1) % u.height)
              ((column + q.2) % u.width)]?).getD Cell.Dead).toU8) 0 := by
    rw [h0, Universe.neighbor_offset_pairs, ← foldl_foldl_flatMap]
    exact List.foldl_ext _ _ _ fun b delta_row hdr =>
      (List.foldl_map (fun delta_col => ((delta_row, delta_col) : Nat × Nat))
        (fun (count : Nat) (q : Nat × Nat) => if q.1 = 0 ∧ q.2 = 0 then count
          else count + ((u.cells[u.get_index ((row + q.1) % u.height)
            ((column + q.2) % u.width)]?).getD Cell.Dead).toU8)
        [u.width - 1, 0, 1] b).symm
  rw [h1, foldl_skip_eq_add_sum (fun q : Nat × Nat => q.1 = 0 ∧ q.2 = 0)
    (fun q => ((u.cells[u.get_index ((row + q.1) % u.height)
      ((column + q.2) % u.width)]?).getD Cell.Dead).toU8) u.neighbor_offset_pairs 0,
    Nat.zero_add, Universe.spec_neighbor_sum, Universe.neighborIndices, List.map_map]
  rfl

theorem toU8_le_one (c : Cell) : c.toU8 ≤ 1 := by
  cases c <;> decide

theorem neighbor_offset_pairs_length (u : Universe) :
    u.neighbor_offset_pairs.length = 9 := rfl

theorem mem_zero_zero_offset_pairs (u : Universe) :
    ((0, 0) : Nat × Nat) ∈ u.neighbor_offset_pairs := by
  rw [Universe.neighbor_offset_pairs]
  refine List.mem_flatMap.mpr ⟨0, by simp, ?_⟩
  exact List.mem_map.mpr ⟨0, by simp, rfl⟩

theorem neighborIndices_length_le (u : Universe) (row column : Nat) :
    (u.neighborIndices row column).length ≤ 8 := by
  rw [Universe.neighborIndices, List.length_map]
  have hlt : (u.neighbor_offset_pairs.filter fun q =>
      decide (¬(q.1 = 0 ∧ q.2 = 0))).length < u.neighbor_offset_pairs.length := by
    refine List.length_filter_lt_length_iff_exists.mpr
      ⟨(0, 0), mem_zero_zero_offset_pairs u, by simp⟩
  rw [neighbor_offset_pairs_length] at hlt
  omega

theorem spec_sum_le_eight (u : Universe) (row column : Nat) :
    u.spec_neighbor_sum row column ≤ 8 := by
  rw [Universe.spec_neighbor_sum]
  have h1 : ∀ x ∈ u.neighborIndices row column,
      ((u.cells[x]?).getD Cell.Dead).toU8 ≤ 1 := fun x _ => toU8_le_one _
  have h2 := sum_map_le_length _ _ h1
  have h3 := neighborIndices_length_le u row column
  omega

theorem lnc_all_dead (u : Universe) (hdead : ∀ c ∈ u.cells, c = Cell.Dead)
    (row column : Nat) : u.live_neighbor_count row column = 0 := by
  rw [lnc_eq_spec_sum, Universe.spec_neighbor_sum]
  apply List.sum_eq_zero
  intro x hx
  obtain ⟨idx, _, rfl⟩ := List.mem_map.mp hx
  cases hy : u.cells[idx]? with
  | none => rfl
  | some c =>
    have hc := hdead c (List.getElem?_mem hy)
    subst hc
    rfl

theorem applyOp_preserves (u : Universe) (op : Op) (u2 : Universe)
    (hop : u.applyOp op = some u2)
    (hinv : u.cells.length = u.width * u.height) :
    u2.cells.length = u2.width * u2.height ∧
      u2.width = u.width ∧ u2.height = u.height := by
  cases op with
  | tick =>
    obtain rfl : u.tick = u2 := by simpa [Universe.applyOp] using hop
    refine ⟨?_, rfl, rfl⟩
    rw [tick_cells_length, tick_width, tick_height, hinv]
  | toggle r c =>
    rw [Universe.applyOp] at hop
    cases hx : u.cells[u.get_index r c]? with
    | none => simp [Universe.toggle_cell, hx] at hop
    | some cb =>
      obtain rfl : ({ u with cells := u.cells.set (u.get_index r c) (if cb = Cell.Alive then Cell.Dead else Cell.Alive) } : Universe) = u2 := by
        simpa [Universe.toggle_cell, hx] using hop
      exact ⟨by simpa [List.length_set] using hinv, rfl, rfl⟩

theorem applyOps_preserves (ops : List Op) : ∀ (u u2 : Universe),
    u.cells.length = u.width * u.height → u.applyOps ops = some u2 →
    u2.cells.length = u2.width * u2.height ∧
      u2.width = u.width ∧ u2.height = u.height := by
  induction ops with
  | nil =>
    intro u u2 hinv h
    obtain rfl : u = u2 := by simpa [Universe.applyOps] using h
    exact ⟨hinv, rfl, rfl⟩
  | cons op ops ih =>
    intro u u2 hinv h
    rw [Universe.applyOps, List.foldlM_cons] at h
    cases hop : u.applyOp op with
    | none => rw [hop] at h; simp at h
    | some u1 =>
      rw [hop] at h
      simp only [Option.bind_eq_bind, Option.some_bind] at h
      obtain ⟨h1, h2, h3⟩ := applyOp_preserves u op u1 hop hinv
      obtain ⟨g1, g2, g3⟩ := ih u1 u2 h1 h
      exact ⟨g1, g2.trans h2, g3.trans h3⟩

theorem new_length : Universe.new.cells.length =
    Universe.new.width * Universe.new.height := by
  simp [Universe.new]

theorem toggle_cell_some {u : Universe} {row col : Nat} {c : Cell}
    (h : u.cells[u.get_index row col]? = some c) :
    u.toggle_cell row col =
      some { u with cells := u.cells.set (u.get_index row col) (if c = Cell.Alive then Cell.Dead else Cell.Alive) } := by
  simp [Universe.toggle_cell, h]

/-! ### Claim theorems -/

/-- C1: for every well-formed grid with positive dimensions, `tick()`
replaces the cell at each in-range `(row, col)` with the value of the
transition rule applied to the pre-tick cell and the pre-tick live
neighbor count — the right-hand side mentions only `u`, never `u.tick`,
so no cell's next state is computed from an already-updated neighbor:
an Alive cell with fewer than 2 live neighbors becomes Dead, an Alive
cell with 2 or 3 stays Alive, an Alive cell with more than 3 becomes
Dead, a Dead cell with exactly 3 becomes Alive, and any other Dead cell
stays Dead. -/
theorem tick_transition_rule (u : Universe) (hw : 0 < u.width)
    (hh : 0 < u.height) (hlen : u.cells.length = u.width * u.height)
    (row col : Nat) (hr : row < u.height) (hc : col < u.width) (c : Cell)
    (hcell : u.cells[u.get_index row col]? = some c) :
    (u.tick).cells[u.get_index row col]? = some (
      if c = Cell.Alive ∧ u.live_neighbor_count row col < 2 then Cell.Dead
      else if c = Cell.Alive ∧ (u.live_neighbor_count row col = 2 ∨
        u.live_neighbor_count row col = 3) then Cell.Alive
      else if c = Cell.Alive ∧ 3 < u.live_neighbor_count row col then Cell.Dead
      else if c = Cell.Dead ∧ u.live_neighbor_count row col = 3 then Cell.Alive
      else c) := by
  have hj : u.get_index row col < u.width * u.height := get_index_lt u hr hc
  obtain ⟨hdiv, hmod⟩ := rowcol_div_mod (r := row) (c := col) hw hc
  have hwrite : u.tickWrite (u.get_index row col)
      = Universe.next_cell c (u.live_neighbor_count row col) := by
    rw [Universe.tickWrite,
      show u.get_index row col / u.width = row from hdiv,
      show u.get_index row col % u.width = col from hmod, hcell]
    rfl
  rw [tick_cells_getElem u hw,
    if_pos ⟨by rw [Nat.mul_comm]; exact hj, by rw [hlen]; exact hj⟩, hwrite]
  rfl

/-- Witness for C1 on the concrete 3 × 3 grid: the Dead cell at (0,1)
has three live neighbors before the tick and is Alive afterwards. -/
theorem tick_transition_rule_witness :
    (blinker3.tick).cells[blinker3.get_index 0 1]? = some Cell.Alive :=
  (tick_transition_rule blinker3 (by decide) (by decide) (by decide) 0 1
    (by decide) (by decide) Cell.Dead (by decide)).trans (by decide)

/-- C2: for every grid with positive dimensions and in-range
coordinates, the loop-based `live_neighbor_count` equals the spec's sum
over the offset pairs `{height-1,0,1} x {width-1,0,1}` minus the pairs
whose value is `(0,0)` (duplicate wrapped coordinates counted once per
offset pair, not deduplicated), and the count never exceeds 8. -/
theorem live_neighbor_count_spec (u : Universe) (hw : 1 ≤ u.width)
    (hh : 1 ≤ u.height) (row col : Nat) (hr : row < u.height)
    (hc : col < u.width) :
    u.live_neighbor_count row col = u.spec_neighbor_sum row col ∧
      u.live_neighbor_count row col ≤ 8 := by
  refine ⟨lnc_eq_spec_sum u row col, ?_⟩
  rw [lnc_eq_spec_sum]
  exact spec_sum_le_eight u row col

/-- Witness for C2 at the center of the concrete 3 × 3 grid. -/
theorem live_neighbor_count_spec_witness :
    blinker3.live_neighbor_count 1 1 = blinker3.spec_neighbor_sum 1 1 ∧
      blinker3.live_neighbor_count 1 1 ≤ 8 :=
  live_neighbor_count_spec blinker3 (by decide) (by decide) 1 1
    (by decide) (by decide)

/-- C3: on any well-formed grid with positive dimensions, every buffer
index produced during neighbor counting is below `width * height`
(which equals the buffer length), and so is the index `tick` itself
writes for any in-range `(row, col)`; hence no indexing in
`live_neighbor_count` or `tick` can go out of bounds. -/
theorem neighbor_indices_in_bounds (u : Universe) (hw : 0 < u.width)
    (hh : 0 < u.height) (hlen : u.cells.length = u.width * u.height)
    (row col : Nat) :
    (∀ i ∈ u.neighborIndices row col, i < u.width * u.height) ∧
      (row < u.height → col < u.width →
        u.get_index row col < u.width * u.height) := by
  constructor
  · intro i hi
    rw [Universe.neighborIndices] at hi
    obtain ⟨q, hq, rfl⟩ := List.mem_map.mp hi
    exact get_index_lt u (Nat.mod_lt _ hh) (Nat.mod_lt _ hw)
  · exact fun hr hc => get_index_lt u hr hc

/-- Witness for C3 on the concrete 3 × 3 grid at (0,0). -/
theorem neighbor_indices_in_bounds_witness :
    (∀ i ∈ blinker3.neighborIndices 0 0, i < blinker3.width * blinker3.height) ∧
      (0 < blinker3.height → 0 < blinker3.width →
        blinker3.get_index 0 0 < blinker3.width * blinker3.height) :=
  neighbor_indices_in_bounds blinker3 (by decide) (by decide) (by decide) 0 0

/-- C4: the freshly constructed grid satisfies
`cells.length = width * height`, and the invariant — together with the
stored width and height — is preserved by every sequence of `tick()` and
`toggle_cell` calls that completes without a panic. -/
theorem length_invariant_all_ops (u : Universe) (ops : List Op)
    (u2 : Universe) (hinv : u.cells.length = u.width * u.height)
    (happ : u.applyOps ops = some u2) :
    Universe.new.cells.length = Universe.new.width * Universe.new.height ∧
      u2.cells.length = u2.width * u2.height ∧
      u2.width = u.width ∧ u2.height = u.height :=
  ⟨new_length, applyOps_preserves ops u u2 hinv happ⟩

/-- Witness for C4: one `tick()` after construction. -/
theorem length_invariant_all_ops_witness :
    Universe.new.cells.length = Universe.new.width * Universe.new.height ∧
      (Universe.new.tick).cells.length =
        (Universe.new.tick).width * (Universe.new.tick).height ∧
      (Universe.new.tick).width = Universe.new.width ∧
      (Universe.new.tick).height = Universe.new.height :=
  length_invariant_all_ops Universe.new [Op.tick] Universe.new.tick
    (by simp [Universe.new]) rfl

/-- C5, counterexample: on the 3 × 3 torus the claimed post-tick state
(Alive exactly at (0,1), (1,1), (2,1), returning after two ticks) is
not what `tick` produces. -/
theorem blinker3_not_as_claimed :
    ¬(blinker3.tick.cells = [Cell.Dead, Cell.Alive, Cell.Dead,
                             Cell.Dead, Cell.Alive, Cell.Dead,
                             Cell.Dead, Cell.Alive, Cell.Dead] ∧
      blinker3.tick.tick.cells = blinker3.cells) := by decide

/-- C5, amended: every cell of the 3 × 3 wrapped grid sees the full
Alive row among its neighbors, so one `tick()` makes all nine cells
Alive, and a second `tick()` (eight live neighbors everywhere) makes
all nine cells Dead. -/
theorem blinker3_all_alive_then_all_dead :
    blinker3.tick.cells = [Cell.Alive, Cell.Alive, Cell.Alive,
                           Cell.Alive, Cell.Alive, Cell.Alive,
                           Cell.Alive, Cell.Alive, Cell.Alive] ∧
      blinker3.tick.tick.cells = [Cell.Dead, Cell.Dead, Cell.Dead,
                                  Cell.Dead, Cell.Dead, Cell.Dead,
                                  Cell.Dead, Cell.Dead, Cell.Dead] := by decide

/-- C6: on a well-formed grid, `toggle_cell` at an in-range coordinate
succeeds, flips exactly that cell, keeps the dimensions and every other
cell, and applied twice returns the grid unchanged. -/
theorem toggle_cell_involutive (u : Universe) (row col : Nat)
    (hlen : u.cells.length = u.width * u.height)
    (hr : row < u.height) (hc : col < u.width) :
    ∃ u2, u.toggle_cell row col = some u2 ∧
      u2.width = u.width ∧ u2.height = u.height ∧
      u2.cells[u.get_index row col]? = (u.cells[u.get_index row col]?).map
        (fun c => if c = Cell.Alive then Cell.Dead else Cell.Alive) ∧
      (∀ i, i < u.cells.length → i ≠ u.get_index row col →
        u2.cells[i]? = u.cells[i]?) ∧
      u2.toggle_cell row col = some u := by
  have hidx : u.get_index row col < u.cells.length := by
    rw [hlen]; exact get_index_lt u hr hc
  cases hx : u.cells[u.get_index row col]? with
  | none =>
    rw [List.getElem?_eq_none_iff] at hx
    omega
  | some cb =>
    refine ⟨{ u with cells := u.cells.set (u.get_index row col) (if cb = Cell.Alive then Cell.Dead else Cell.Alive) }, ?_, rfl, rfl, ?_, ?_, ?_⟩
    · simp [Universe.toggle_cell, hx]
    · show (u.cells.set (u.get_index row col)
          (if cb = Cell.Alive then Cell.Dead else Cell.Alive))[u.get_index row col]?
        = some (if cb = Cell.Alive then Cell.Dead else Cell.Alive)
      rw [List.getElem?_set, if_pos rfl, if_pos hidx]
    · intro i hi hne
      show (u.cells.set (u.get_index row col)
          (if cb = Cell.Alive then Cell.Dead else Cell.Alive))[i]? = u.cells[i]?
      rw [List.getElem?_set, if_neg (fun h => hne h.symm)]
    · have hflip : (if (if cb = Cell.Alive then Cell.Dead else Cell.Alive) = Cell.Alive
          then Cell.Dead else Cell.Alive) = cb := by
        cases cb <;> rfl
      have hL : ({ u with cells := u.cells.set (u.get_index row col) (if cb = Cell.Alive then Cell.Dead else Cell.Alive) } : Universe).cells[({ u with cells := u.cells.set (u.get_index row col) (if cb = Cell.Alive then Cell.Dead else Cell.Alive) } : Universe).get_index row col]? = some (if cb = Cell.Alive then Cell.Dead else Cell.Alive) := by
        show (u.cells.set (u.get_index row col)
            (if cb = Cell.Alive then Cell.Dead else Cell.Alive))[u.get_index row col]?
          = some (if cb = Cell.Alive then Cell.Dead else Cell.Alive)
        rw [List.getElem?_set, if_pos rfl, if_pos hidx]
      rw [toggle_cell_some hL]
      show some ({ u with cells := (u.cells.set (u.get_index row col) (if cb = Cell.Alive then Cell.Dead else Cell.Alive)).set (u.get_index row col) (if (if cb = Cell.Alive then Cell.Dead else Cell.Alive) = Cell.Alive then Cell.Dead else Cell.Alive) } : Universe) = some u
      rw [List.set_set, hflip, set_getElem?_self u.cells _ cb hx]

/-- Witness for C6: toggling the Alive cell at (1,2) of the concrete
3 × 3 grid. -/
theorem toggle_cell_involutive_witness :
    ∃ u2, blinker3.toggle_cell 1 2 = some u2 ∧
      u2.width = blinker3.width ∧ u2.height = blinker3.height ∧
      u2.cells[blinker3.get_index 1 2]? = (blinker3.cells[blinker3.get_index 1 2]?).map
        (fun c => if c = Cell.Alive then Cell.Dead else Cell.Alive) ∧
      (∀ i, i < blinker3.cells.length → i ≠ blinker3.get_index 1 2 →
        u2.cells[i]? = blinker3.cells[i]?) ∧
      u2.toggle_cell 1 2 = some blinker3 :=
  toggle_cell_involutive blinker3 1 2 (by decide) (by decide) (by decide)

/-- C7: ticking a grid whose cells are all Dead yields a grid whose
cells are all Dead — no spontaneous life. -/
theorem tick_all_dead (u : Universe) (hw : 1 ≤ u.width) (hh : 1 ≤ u.height)
    (hdead : ∀ c ∈ u.cells, c = Cell.Dead) :
    ∀ c ∈ (u.tick).cells, c = Cell.Dead := by
  rw [tick_cells_eq_foldl]
  refine forall_mem_foldl_set (fun c => c = Cell.Dead)
    (fun q : Nat × Nat => u.get_index q.1 q.2)
    (fun q : Nat × Nat => Universe.next_cell
      ((u.cells[u.get_index q.1 q.2]?).getD Cell.Dead)
      (u.live_neighbor_count q.1 q.2))
    u.coordPairs u.cells hdead ?_
  intro q hq
  have h1 : (u.cells[u.get_index q.1 q.2]?).getD Cell.Dead = Cell.Dead := by
    cases hy : u.cells[u.get_index q.1 q.2]? with
    | none => rfl
    | some c => exact hdead c (List.getElem?_mem hy)
  show Universe.next_cell ((u.cells[u.get_index q.1 q.2]?).getD Cell.Dead)
    (u.live_neighbor_count q.1 q.2) = Cell.Dead
  rw [h1, lnc_all_dead u hdead]
  rfl

/-- Witness for C7 on the concrete all-Dead 2 × 2 grid. -/
theorem tick_all_dead_witness :
    ((deadGrid2.tick).cells.all fun c => c = Cell.Dead) = true := by
  have h := tick_all_dead deadGrid2 (by decide) (by decide) (by decide)
  rw [List.all_eq_true]
  intro c hc
  exact decide_eq_true (h c hc)

set_option maxRecDepth 8000 in
/-- C8: in the grid produced by the default constructor, the cell at
every linear index `i < width * height` is Alive exactly when `i` is a
multiple of 2 or a multiple of 7, and Dead otherwise. -/
theorem new_seeding (i : Nat)
    (hi : i < Universe.new.width * Universe.new.height) :
    Universe.new.cells[i]? =
      some (if i % 2 = 0 ∨ i % 7 = 0 then Cell.Alive else Cell.Dead) := by
  have hi2 : i < 64 * 64 := hi
  have h0 : Universe.new.cells = (List.range (64 * 64)).map fun k =>
      if k % 2 = 0 || k % 7 = 0 then Cell.Alive else Cell.Dead := rfl
  rw [h0, List.getElem?_map, List.getElem?_range hi2]
  show some (if i % 2 = 0 || i % 7 = 0 then Cell.Alive else Cell.Dead) = _
  by_cases h2 : i % 2 = 0 <;> by_cases h7 : i % 7 = 0 <;> simp [h2, h7]

/-- Witness for C8: index 5 (odd, not a multiple of 7) is Dead. -/
theorem new_seeding_witness :
    Universe.new.cells[5]? = some Cell.Dead :=
  (new_seeding 5 (by decide)).trans (by decide)

/-- C9: the constructor takes no dimension parameters — requesting a
zero-sized grid is impossible through its signature — and the grid it
produces has positive (namely 64 × 64) width and height. -/
theorem new_dimensions_positive :
    0 < Universe.new.width ∧ 0 < Universe.new.height ∧
      Universe.new.width = 64 ∧ Universe.new.height = 64 := by decide

/-- C10: `cell` and `toggle_cell` address the buffer through the single
linear index `row * width + col` with no per-coordinate bounds check:
they succeed exactly when that index is below `width * height` (the
buffer length), even when `col >= width` (silently aliasing a cell of a
different row), and a successful `toggle_cell` writes at exactly that
linear index. -/
theorem unchecked_linear_indexing (u : Universe)
    (hlen : u.cells.length = u.width * u.height) (row col : Nat) :
    (u.cell row col = u.cells[row * u.width + col]?) ∧
    ((u.cell row col).isSome ↔ row * u.width + col < u.width * u.height) ∧
    ((u.toggle_cell row col).isSome ↔ row * u.width + col < u.width * u.height) ∧
    (∀ u2, u.toggle_cell row col = some u2 →
      u2.cells = u.cells.set (row * u.width + col)
        (if (u.cells[row * u.width + col]?).getD Cell.Dead = Cell.Alive
         then Cell.Dead else Cell.Alive)) := by
  refine ⟨rfl, ?_, ?_, ?_⟩
  · show (u.cells[row * u.width + col]?).isSome ↔
      row * u.width + col < u.width * u.height
    rw [← hlen]
    exact getElem?_isSome_iff u.cells (row * u.width + col)
  · cases hx : u.cells[u.get_index row col]? with
    | none =>
      have h1 : u.toggle_cell row col = none := by
        simp [Universe.toggle_cell, hx]
      have h2 : u.cells.length ≤ u.get_index row col :=
        List.getElem?_eq_none_iff.mp hx
      have h3 : u.get_index row col = row * u.width + col := rfl
      rw [h1]
      simp only [Option.isSome_none, Bool.false_eq_true, false_iff]
      omega
    | some cb =>
      have h1 := toggle_cell_some hx
      have h2 : u.get_index row col < u.cells.length := by
        by_contra hcon
        rw [List.getElem?_eq_none (Nat.le_of_not_lt hcon)] at hx
        exact absurd hx (by simp)
      have h3 : u.get_index row col = row * u.width + col := rfl
      rw [h1]
      simp only [Option.isSome_some, true_iff]
      omega
  · intro u2 h2
    cases hx : u.cells[u.get_index row col]? with
    | none =>
      rw [show u.toggle_cell row col = none from by
        simp [Universe.toggle_cell, hx]] at h2
      exact absurd h2 (by simp)
    | some cb =>
      rw [toggle_cell_some hx] at h2
      obtain rfl := Option.some.inj h2
      rw [show u.cells[row * u.width + col]? = some cb from hx]
      rfl

/-- Witness for C10: on the 2 × 2 grid, `(row, col) = (0, 3)` has
`col >= width` yet linear index 3 < 4, so both accessors succeed and
alias the last cell of the buffer. -/
theorem unchecked_linear_indexing_witness :
    (aliasGrid.cell 0 3 = aliasGrid.cells[0 * aliasGrid.width + 3]?) ∧
    ((aliasGrid.cell 0 3).isSome ↔
      0 * aliasGrid.width + 3 < aliasGrid.width * aliasGrid.height) ∧
    ((aliasGrid.toggle_cell 0 3).isSome ↔
      0 * aliasGrid.width + 3 < aliasGrid.width * aliasGrid.height) ∧
    (∀ u2, aliasGrid.toggle_cell 0 3 = some u2 →
      u2.cells = aliasGrid.cells.set (0 * aliasGrid.width + 3)
        (if (aliasGrid.cells[0 * aliasGrid.width + 3]?).getD Cell.Dead = Cell.Alive
         then Cell.Dead else Cell.Alive)) :=
  unchecked_linear_indexing aliasGrid (by decide) 0 3
